import Mathlib

/-!
Shallow embedding of the ollamatui terminal chat client (src/main.rs).

The development models the transcript data model (Message, ChatHistory),
the Enter-key submit step of the event loop, the fragment drain loop,
the streaming decode loop of send_message, the scroll-window computation
of the draw closure, and the control flow of main around terminal
setup and teardown.
-/

/-- A chat message, from `struct Message { role: String, content: String }`. -/
structure Message where
  role : String
  content : String
deriving DecidableEq, Repr

/-- The transcript, from `struct ChatHistory { messages: Vec<Message> }`. -/
structure ChatHistory where
  messages : List Message
deriving DecidableEq, Repr

/-- Field-by-field deep copy, from `impl ChatHistory { fn clone }`: maps every
message to a fresh message with the same role and content. -/
def ChatHistory.clone (h : ChatHistory) : ChatHistory :=
  ⟨h.messages.map (fun m => ⟨m.role, m.content⟩)⟩

/-- One fragment applied by the drain loop of main: take `last_mut` of the
message vector; when it exists and its role is assistant, push the fragment
text onto its content; otherwise leave the transcript alone. -/
def appendFragment (msgs : List Message) (frag : String) : List Message :=
  match msgs.getLast? with
  | none => msgs
  | some m =>
    if m.role = "assistant" then
      msgs.dropLast ++ [⟨m.role, m.content ++ frag⟩]
    else msgs

/-- Draining one batch of fragments from the channel in arrival order, as the
while-let over `rx.try_recv()` does within one tick. -/
def drainFragments (msgs : List Message) (frags : List String) : List Message :=
  frags.foldl appendFragment msgs

/-- Draining across several ticks: one batch of fragments per tick. -/
def drainBatches (msgs : List Message) (batches : List (List String)) : List Message :=
  batches.foldl drainFragments msgs

/-- Ordered concatenation of a list of fragments. -/
def concatFrags : List String → String
  | [] => ""
  | f :: fs => f ++ concatFrags fs

/-- The Enter arm of the event loop: push the user message carrying the input
buffer, push the empty assistant placeholder, then clone the history for the
background request and clear the input buffer.  The result is the new
transcript, the snapshot handed to send_message, and the new input buffer. -/
def enterSubmit (msgs : List Message) (input : String) :
    List Message × ChatHistory × String :=
  let afterUser := msgs ++ [⟨"user", input⟩]
  let afterAssistant := afterUser ++ [⟨"assistant", ""⟩]
  (afterAssistant, ChatHistory.clone ⟨afterAssistant⟩, "")

/-- The subset of serde_json::Value shapes the decoder can meet. -/
inductive Json where
  | null
  | bool (b : Bool)
  | num (n : Int)
  | str (s : String)
  | arr (elems : List Json)
  | obj (fields : List (String × Json))

/-- Indexing a JSON value by key as serde_json's Index does: a lookup in an
object, Null when the key is absent or the value is not an object. -/
def Json.index (j : Json) (key : String) : Json :=
  match j with
  | .obj fields => (fields.lookup key).getD .null
  | _ => .null

/-- Value::as_str: some string only on a JSON string. -/
def Json.asStr : Json → Option String
  | .str s => some s
  | _ => none

/-- One chunk delivered by resp.bytes_stream(), classified by how far the
decode pipeline of send_message can take it: the read itself failed, the
bytes were not valid UTF-8, the text did not parse as JSON, or it parsed to
a JSON value. -/
inductive RawChunk where
  | readErr
  | invalidUtf8
  | notJson (text : String)
  | json (j : Json)

/-- The fragment a chunk contributes, following the nested if-lets of
send_message: any failed stage yields nothing, a parsed value contributes
its message.content field when that is a string. -/
def decodeChunk : RawChunk → Option String
  | .readErr => none
  | .invalidUtf8 => none
  | .notJson _ => none
  | .json j => ((j.index "message").index "content").asStr

/-- Outcome of the chunk loop: the fragments sent in order, or a panic
raised by unwrap on a failed channel send, with the fragments sent before
the panic. -/
inductive SendOutcome where
  | completed (sent : List String)
  | panicked (sent : List String)
deriving DecidableEq, Repr

/-- The while-let read loop of send_message: decode each chunk in order and
send the content when present.  The send result is unwrapped, so a send
with the consumer gone panics instead of continuing. -/
def streamLoop (alive : Bool) : List RawChunk → SendOutcome
  | [] => .completed []
  | c :: cs =>
    match decodeChunk c with
    | none => streamLoop alive cs
    | some f =>
      if alive then
        match streamLoop alive cs with
        | .completed rest => .completed (f :: rest)
        | .panicked rest => .panicked (f :: rest)
      else .panicked []

/-- An established HTTP response: reqwest's send() resolves to Ok with a
status code and a byte stream whether or not the status is a success. -/
structure HttpResponse where
  status : Nat
  chunks : List RawChunk

/-- send_message: a transport error makes the outer if-let fall through and
the function returns with nothing emitted; an established response has its
body streamed regardless of status. -/
def send_message (alive : Bool) (response : Except Unit HttpResponse) :
    SendOutcome :=
  match response with
  | .error _ => .completed []
  | .ok resp => streamLoop alive resp.chunks

/-- Splitting a character sequence at every newline; always returns at
least one (possibly empty) segment. -/
def splitOnNewline : List Char → List (List Char)
  | [] => [[]]
  | c :: rest =>
    match splitOnNewline rest with
    | [] => [[]]
    | seg :: segs =>
      if c = '\n' then [] :: seg :: segs else (c :: seg) :: segs

/-- Rust str::lines: split on newline, drop the segment after a trailing
newline, and strip one carriage return from the end of each
newline-terminated line. -/
def rustLines (s : String) : List String :=
  let parts := splitOnNewline s.data
  let trimCR : List Char → List Char :=
    fun l => if l.getLast? = some '\r' then l.dropLast else l
  match parts.getLast? with
  | none => []
  | some last =>
    ((parts.dropLast.map trimCR).map (fun l => ⟨l⟩)) ++
      (if last.isEmpty then [] else [(⟨last⟩ : String)])

/-- The history text of the draw closure: one role-prefixed line per
message, joined with newlines and split back into lines. -/
def renderLines (msgs : List Message) : List String :=
  rustLines (String.intercalate "\n"
    (msgs.map (fun m => m.role ++ ": " ++ m.content)))

/-- The visible window of the draw closure: display_start is the scroll
offset clamped to the total line count, display_end is the total line
count, and the slice between them is displayed. -/
def visibleWindow (scrollOffset : Nat) (lines : List String) : List String :=
  let totalLines := lines.length
  let displayStart := min scrollOffset totalLines
  lines.drop displayStart

/-- The key codes the event loop dispatches on. -/
inductive UiKey where
  | enter
  | char (c : Char)
  | backspace
  | esc
  | pageUp
  | pageDown
  | other
deriving DecidableEq, Repr

/-- One event observed by the loop: a fragment drained from the channel or
a key press. -/
inductive UiEvent where
  | fragment (f : String)
  | key (k : UiKey)
deriving DecidableEq, Repr

/-- The mutable UI state of main: input buffer, transcript, scroll offset,
and whether Esc has broken out of the loop. -/
structure UiState where
  input : String
  messages : List Message
  scrollOffset : Nat
  terminated : Bool
deriving DecidableEq, Repr

/-- Checked usize subtraction: underflow is a failure, not a wrap. -/
def usizeSub (a b : Nat) : Option Nat :=
  if b ≤ a then some (a - b) else none

/-- The state at the top of main: empty input, empty transcript, scroll
offset zero. -/
def initState : UiState := ⟨"", [], 0, false⟩

/-- One step of the event loop.  Enter runs the submit arm, PageUp runs
scroll_offset -= 5 only when the offset is positive (checked usize
arithmetic), PageDown runs scroll_offset += 5, Esc breaks out of the loop,
and events after the break leave the state alone. -/
def stepEvent (s : UiState) (e : UiEvent) : Option UiState :=
  if s.terminated then some s else
  match e with
  | .fragment f => some { s with messages := appendFragment s.messages f }
  | .key .enter =>
    let r := enterSubmit s.messages s.input
    some { s with messages := r.1, input := r.2.2 }
  | .key (.char c) => some { s with input := s.input.push c }
  | .key .backspace => some { s with input := s.input.dropRight 1 }
  | .key .esc => some { s with terminated := true }
  | .key .pageUp =>
    if s.scrollOffset > 0 then
      (usizeSub s.scrollOffset 5).map (fun n => { s with scrollOffset := n })
    else some s
  | .key .pageDown => some { s with scrollOffset := s.scrollOffset + 5 }
  | .key .other => some s

/-- Run the event loop from a given state over a list of events; none marks
a panic from an underflowing usize subtraction. -/
def runFrom (s : UiState) : List UiEvent → Option UiState
  | [] => some s
  | e :: es =>
    match stepEvent s e with
    | none => none
    | some s1 => runFrom s1 es

/-- Run the event loop from the initial state. -/
def runEvents (es : List UiEvent) : Option UiState :=
  runFrom initState es

/-- Terminal mode flags: whether raw mode is enabled and whether the
alternate screen is active. -/
structure TermState where
  rawMode : Bool
  altScreen : Bool
deriving DecidableEq, Repr

/-- How main returned: Ok at the end, or Err propagated by a question-mark
operator. -/
inductive ExitKind where
  | okExit
  | errExit
deriving DecidableEq, Repr

/-- The fallible I/O of one loop iteration: the draw call may fail, the
event poll may fail, the event read may fail, a key event may arrive, or
the poll may time out (or deliver a non-key event). -/
inductive IterIo where
  | drawErr
  | pollErr
  | readErr
  | keyEvent (k : UiKey)
  | noEvent
deriving DecidableEq, Repr

/-- The fallible I/O outcomes of one run of main: the three setup calls,
the per-iteration outcomes, and the two cleanup calls after the loop. -/
structure MainIo where
  enableRawOk : Bool
  enterAltOk : Bool
  newTerminalOk : Bool
  iters : List IterIo
  disableRawOk : Bool
  leaveAltOk : Bool
deriving DecidableEq, Repr

/-- Result of running main against an I/O trace: the process exited with
the given terminal state, or the trace ended with the loop still running. -/
inductive MainResult where
  | exited (k : ExitKind) (t : TermState)
  | running (t : TermState)
deriving DecidableEq, Repr

/-- The loop of main over the remaining iteration outcomes.  A failing
draw, poll or read propagates Err at once via the question-mark operator,
with no cleanup.  Esc breaks out of the loop, after which
disable_raw_mode and LeaveAlternateScreen run, each itself fallible.
Any other outcome continues the loop. -/
def loopFlow (dRawOk lAltOk : Bool) (t : TermState) :
    List IterIo → MainResult
  | [] => .running t
  | io :: rest =>
    match io with
    | .drawErr => .exited .errExit t
    | .pollErr => .exited .errExit t
    | .readErr => .exited .errExit t
    | .noEvent => loopFlow dRawOk lAltOk t rest
    | .keyEvent k =>
      if k = .esc then
        if dRawOk then
          if lAltOk then .exited .okExit ⟨false, false⟩
          else .exited .errExit ⟨false, t.altScreen⟩
        else .exited .errExit t
      else loopFlow dRawOk lAltOk t rest

/-- The control flow of main around terminal setup and teardown:
enable_raw_mode, then EnterAlternateScreen, then Terminal::new, each
propagating Err at once on failure, then the loop. -/
def mainFlow (io : MainIo) : MainResult :=
  if io.enableRawOk then
    if io.enterAltOk then
      if io.newTerminalOk then
        loopFlow io.disableRawOk io.leaveAltOk ⟨true, true⟩ io.iters
      else .exited .errExit ⟨true, true⟩
    else .exited .errExit ⟨true, false⟩
  else .exited .errExit ⟨false, false⟩

/-- An iteration outcome that keeps the loop going: a poll timeout or a key
event other than Esc. -/
def quietIter : IterIo → Bool
  | .noEvent => true
  | .keyEvent k => k ≠ UiKey.esc
  | _ => false

/-! Helper lemmas about the drain loop. -/

theorem appendFragment_concat (pre : List Message) (m : Message) (f : String) :
    appendFragment (pre ++ [m]) f =
      if m.role = "assistant" then pre ++ [⟨m.role, m.content ++ f⟩]
      else pre ++ [m] := by
  simp [appendFragment, List.getLast?_concat, List.dropLast_concat]

theorem appendFragment_assistant (pre : List Message) (c f : String) :
    appendFragment (pre ++ [⟨"assistant", c⟩]) f =
      pre ++ [⟨"assistant", c ++ f⟩] := by
  rw [appendFragment_concat]
  simp

theorem drainFragments_assistant (pre : List Message) (c : String)
    (fs : List String) :
    drainFragments (pre ++ [⟨"assistant", c⟩]) fs =
      pre ++ [⟨"assistant", c ++ concatFrags fs⟩] := by
  induction fs generalizing c with
  | nil => simp [drainFragments, concatFrags]
  | cons f fs ih =>
    rw [drainFragments, List.foldl_cons, appendFragment_assistant]
    have h := ih (c ++ f)
    rw [drainFragments] at h
    rw [h, concatFrags, String.append_assoc]

theorem concatFrags_append (xs ys : List String) :
    concatFrags (xs ++ ys) = concatFrags xs ++ concatFrags ys := by
  induction xs with
  | nil => simp [concatFrags]
  | cons x xs ih => simp [concatFrags, ih, String.append_assoc]

/-- C2: for every transcript whose last message is an assistant message with
content c, applying a sequence of fragments split into arbitrary drain
batches across ticks yields that message with content c followed by the
ordered concatenation of all fragments; the result depends only on the
flattened fragment sequence, not on the batch sizes. -/
theorem drain_batches_concat (pre : List Message) (c : String)
    (batches : List (List String)) :
    drainBatches (pre ++ [⟨"assistant", c⟩]) batches =
      pre ++ [⟨"assistant", c ++ concatFrags batches.flatten⟩] := by
  induction batches generalizing c with
  | nil => simp [drainBatches, concatFrags]
  | cons b bs ih =>
    rw [drainBatches, List.foldl_cons, drainFragments_assistant]
    have h := ih (c ++ concatFrags b)
    rw [drainBatches] at h
    rw [h, List.flatten_cons, concatFrags_append, String.append_assoc]

/-- C7: applying a fragment when no message is in progress is a no-op: on the
empty transcript nothing happens, and when the last entry's role is not
assistant the whole transcript, every message and every content included, is
returned unchanged. -/
theorem appendFragment_no_in_progress (pre : List Message) (r c f : String)
    (h : r ≠ "assistant") :
    appendFragment [] f = [] ∧
    appendFragment (pre ++ [⟨r, c⟩]) f = pre ++ [⟨r, c⟩] := by
  constructor
  · rfl
  · rw [appendFragment_concat]
    simp [h]

/-- Witness for C7 at a concrete transcript: a last entry with user role is
untouched, and the empty transcript stays empty. -/
theorem appendFragment_no_in_progress_witness :
    appendFragment [] "x" = [] ∧
    appendFragment ([] ++ [⟨"user", "hi"⟩]) "x" = [] ++ [⟨"user", "hi"⟩] :=
  appendFragment_no_in_progress [] "user" "hi" "x" (by decide)

theorem clone_messages (h : ChatHistory) : h.clone.messages = h.messages := by
  show h.messages.map (fun m => ⟨m.role, m.content⟩) = h.messages
  have hf : (fun m : Message => (⟨m.role, m.content⟩ : Message)) = id := by
    funext m
    rfl
  rw [hf, List.map_id]

/-- C1 fails on the code: with an empty prior transcript and input "hi",
the snapshot handed to send_message contains the empty assistant
placeholder and is not just the user message — the clone is taken after
the placeholder is pushed. -/
theorem snapshot_excludes_placeholder_cex :
    (enterSubmit [] "hi").2.1.messages ≠ [⟨"user", "hi"⟩] ∧
    (⟨"assistant", ""⟩ : Message) ∈ (enterSubmit [] "hi").2.1.messages := by
  decide

/-- C1 amended: for every transcript state and every non-empty input, the
snapshot handed to send_message equals the prior messages plus the new
user message plus the new empty assistant placeholder, because the clone
is taken after both pushes; the live transcript holds the same list. -/
theorem snapshot_includes_placeholder (msgs : List Message) (input : String)
    (h : input ≠ "") :
    (enterSubmit msgs input).2.1.messages =
      msgs ++ [⟨"user", input⟩, ⟨"assistant", ""⟩] ∧
    (enterSubmit msgs input).1 =
      msgs ++ [⟨"user", input⟩, ⟨"assistant", ""⟩] := by
  unfold enterSubmit
  rw [clone_messages]
  simp

/-- Witness for the amended C1 at input "hi" on the empty transcript. -/
theorem snapshot_includes_placeholder_witness :
    (enterSubmit [] "hi").2.1.messages =
      [] ++ [⟨"user", "hi"⟩, ⟨"assistant", ""⟩] ∧
    (enterSubmit [] "hi").1 = [] ++ [⟨"user", "hi"⟩, ⟨"assistant", ""⟩] :=
  snapshot_includes_placeholder [] "hi" (by decide)

/-- C3 fails on the code: pressing Enter with an empty input buffer on the
empty transcript appends two entries, so the transcript is changed. -/
theorem empty_submit_noop_cex :
    (enterSubmit [] "").1 = [⟨"user", ""⟩, ⟨"assistant", ""⟩] ∧
    (enterSubmit [] "").1 ≠ [] := by
  decide

/-- C3 amended: submitting an empty input buffer behaves like any other
submission: the Enter arm unconditionally appends a user message with
empty content and an empty assistant placeholder to the transcript. -/
theorem empty_submit_appends (msgs : List Message) :
    (enterSubmit msgs "").1 = msgs ++ [⟨"user", ""⟩, ⟨"assistant", ""⟩] := by
  simp [enterSubmit]

/-- C8: a chunk that failed the UTF-8 decode, failed the JSON parse, or
parsed to a value without a string message.content field contributes no
fragment, and the read loop continues over the remaining chunks exactly as
if the malformed chunk were absent — it never terminates the stream. -/
theorem malformed_chunk_dropped (alive : Bool) (cs : List RawChunk)
    (t : String) (j : Json)
    (h : ((j.index "message").index "content").asStr = none) :
    decodeChunk .invalidUtf8 = none ∧
    decodeChunk (.notJson t) = none ∧
    decodeChunk (.json j) = none ∧
    streamLoop alive (.invalidUtf8 :: cs) = streamLoop alive cs ∧
    streamLoop alive (.notJson t :: cs) = streamLoop alive cs ∧
    streamLoop alive (.json j :: cs) = streamLoop alive cs := by
  refine ⟨rfl, rfl, h, ?_, ?_, ?_⟩ <;>
    simp [streamLoop, decodeChunk, h]

/-- Witness for C8: a JSON object without a message field is dropped, as
are a non-UTF-8 chunk and a non-JSON chunk. -/
theorem malformed_chunk_dropped_witness :
    decodeChunk .invalidUtf8 = none ∧
    decodeChunk (.notJson "oops") = none ∧
    decodeChunk (.json (.obj [])) = none ∧
    streamLoop true (.invalidUtf8 :: []) = streamLoop true [] ∧
    streamLoop true (.notJson "oops" :: []) = streamLoop true [] ∧
    streamLoop true (.json (.obj []) :: []) = streamLoop true [] :=
  malformed_chunk_dropped true [] "oops" (.obj []) rfl

/-- C5 fails on the code for the non-success-status case: an established
response with status 500 whose body parses to a record with a string
message.content field makes send_message emit that fragment, because the
status code is never inspected. -/
theorem nonsuccess_status_cex :
    send_message true
      (.ok ⟨500, [.json (.obj [("message",
        .obj [("content", .str "oops")])])]⟩) = .completed ["oops"] := by
  rfl

/-- C5 amended: a transport-level failure (connection refused, DNS
failure) makes send_message return with zero fragments emitted and no
error surfaced, so the drained batch is empty and the assistant
placeholder's content stays the empty string; the HTTP status, however,
is never inspected: an established response is streamed identically
whatever its status code. -/
theorem transport_failure_silent (alive : Bool) (e : Unit)
    (pre : List Message) (s1 s2 : Nat) (chunks : List RawChunk) :
    send_message alive (.error e) = .completed [] ∧
    drainFragments (pre ++ [⟨"assistant", ""⟩]) [] =
      pre ++ [⟨"assistant", ""⟩] ∧
    send_message alive (.ok ⟨s1, chunks⟩) =
      send_message alive (.ok ⟨s2, chunks⟩) :=
  ⟨rfl, rfl, rfl⟩

/-- C6 against the code: when the consumer is gone, the first successfully
decoded fragment reaches tx.send(..).unwrap() on an Err and panics —
send_message does not silently abandon the failed send.  With the consumer
alive the same response completes normally with the fragment sent. -/
theorem send_failure_panics :
    send_message false
      (.ok ⟨200, [.json (.obj [("message",
        .obj [("content", .str "hi")])])]⟩) = .panicked [] ∧
    send_message true
      (.ok ⟨200, [.json (.obj [("message",
        .obj [("content", .str "hi")])])]⟩) = .completed ["hi"] :=
  ⟨rfl, rfl⟩

/-- C9: the visible-window computation of the draw closure is total and
in-bounds: the clamped start index never exceeds the total line count, and
whenever the scroll offset is at least the total rendered line count the
displayed window is empty. -/
theorem visible_window_safe (offset : Nat) (msgs : List Message) :
    min offset (renderLines msgs).length ≤ (renderLines msgs).length ∧
    ((renderLines msgs).length ≤ offset →
      visibleWindow offset (renderLines msgs) = []) := by
  refine ⟨min_le_right _ _, fun h => ?_⟩
  show List.drop (min offset (renderLines msgs).length) (renderLines msgs) = []
  rw [min_eq_right h]
  exact List.drop_length _

/-- Witness for C9: offset 7 on a one-line transcript displays nothing. -/
theorem visible_window_safe_witness :
    visibleWindow 7 (renderLines [⟨"user", "hi"⟩]) = [] :=
  (visible_window_safe 7 [⟨"user", "hi"⟩]).2 (by decide)

theorem stepEvent_pageDown (s : UiState) :
    stepEvent s (.key .pageDown) =
      some (if s.terminated then s
            else { s with scrollOffset := s.scrollOffset + 5 }) := by
  cases ht : s.terminated <;> simp [stepEvent, ht]

theorem stepEvent_pageUp (s : UiState) (h : s.scrollOffset % 5 = 0) :
    stepEvent s (.key .pageUp) =
      some (if s.terminated then s
            else { s with scrollOffset := s.scrollOffset - 5 }) := by
  obtain ⟨inp, msgs, off, term⟩ := s
  have h1 : off % 5 = 0 := h
  cases term
  · by_cases hpos : off > 0
    · have h5 : 5 ≤ off := by omega
      simp [stepEvent, hpos, usizeSub, h5]
    · have h0 : off = 0 := by omega
      subst h0
      simp [stepEvent, hpos]
  · simp [stepEvent]

theorem stepEvent_invariant (s : UiState) (e : UiEvent)
    (h : s.scrollOffset % 5 = 0) :
    ∃ s1, stepEvent s e = some s1 ∧ s1.scrollOffset % 5 = 0 := by
  obtain ⟨inp, msgs, off, term⟩ := s
  have h1 : off % 5 = 0 := h
  cases term
  · cases e with
    | fragment f => exact ⟨_, rfl, h1⟩
    | key k =>
      cases k with
      | enter => exact ⟨_, rfl, h1⟩
      | char c => exact ⟨_, rfl, h1⟩
      | backspace => exact ⟨_, rfl, h1⟩
      | esc => exact ⟨_, rfl, h1⟩
      | pageUp =>
        by_cases hpos : off > 0
        · have h5 : 5 ≤ off := by omega
          refine ⟨⟨inp, msgs, off - 5, false⟩, ?_,
            show (off - 5) % 5 = 0 by omega⟩
          simp [stepEvent, hpos, usizeSub, h5]
        · refine ⟨⟨inp, msgs, off, false⟩, ?_, h1⟩
          simp [stepEvent, hpos]
      | pageDown => exact ⟨_, rfl, show (off + 5) % 5 = 0 by omega⟩
      | other => exact ⟨_, rfl, h1⟩
  · exact ⟨_, rfl, h1⟩

theorem runFrom_invariant (es : List UiEvent) (s : UiState)
    (h : s.scrollOffset % 5 = 0) :
    ∃ s1, runFrom s es = some s1 ∧ s1.scrollOffset % 5 = 0 := by
  induction es generalizing s with
  | nil => exact ⟨s, rfl, h⟩
  | cons e es ih =>
    obtain ⟨s2, hs2, h2⟩ := stepEvent_invariant s e h
    obtain ⟨s3, hs3, h3⟩ := ih s2 h2
    refine ⟨s3, ?_, h3⟩
    rw [runFrom, hs2]
    exact hs3

theorem runFrom_concat (es : List UiEvent) (e : UiEvent) (s s1 : UiState)
    (h : runFrom s es = some s1) :
    runFrom s (es ++ [e]) = stepEvent s1 e := by
  induction es generalizing s with
  | nil =>
    injection h with h1
    subst h1
    cases hst : stepEvent s e with
    | none => simp [runFrom, hst]
    | some s2 => simp [runFrom, hst]
  | cons e0 es ih =>
    cases hst : stepEvent s e0 with
    | none => rw [runFrom, hst] at h; exact absurd h (by simp)
    | some s2 =>
      rw [runFrom, hst] at h
      rw [List.cons_append, runFrom, hst]
      exact ih s2 h

/-- C10: from the initial state, every sequence of key events and fragment
deliveries runs without a usize underflow and reaches a state whose scroll
offset is a multiple of the step 5; from that state a further PageUp
succeeds and moves the offset to its value minus 5 in truncated
arithmetic — exactly the clamp at 0, since the offset is a multiple of 5 —
and a further PageDown succeeds and adds exactly 5, unbounded. -/
theorem scroll_offset_invariant (es : List UiEvent) :
    ∃ s, runEvents es = some s ∧ s.scrollOffset % 5 = 0 ∧
      runEvents (es ++ [.key .pageUp]) =
        some (if s.terminated then s
              else { s with scrollOffset := s.scrollOffset - 5 }) ∧
      runEvents (es ++ [.key .pageDown]) =
        some (if s.terminated then s
              else { s with scrollOffset := s.scrollOffset + 5 }) := by
  obtain ⟨s, hs, hinv⟩ := runFrom_invariant es initState (by decide)
  refine ⟨s, hs, hinv, ?_, ?_⟩
  · rw [runEvents, runFrom_concat es _ initState s hs,
      stepEvent_pageUp s hinv]
  · rw [runEvents, runFrom_concat es _ initState s hs,
      stepEvent_pageDown s]

theorem loopFlow_quiet (d l : Bool) (t : TermState) (pre rest : List IterIo)
    (h : ∀ x ∈ pre, quietIter x = true) :
    loopFlow d l t (pre ++ rest) = loopFlow d l t rest := by
  induction pre with
  | nil => rfl
  | cons x xs ih =>
    have hx : quietIter x = true := h x (List.mem_cons_self x xs)
    have hxs : ∀ y ∈ xs, quietIter y = true :=
      fun y hy => h y (List.mem_cons_of_mem x hy)
    cases x with
    | noEvent => rw [List.cons_append, loopFlow]; exact ih hxs
    | keyEvent k =>
      have hk : ¬(k = UiKey.esc) := by simpa [quietIter] using hx
      rw [List.cons_append, loopFlow]
      simp only [hk, if_false]
      exact ih hxs
    | drawErr => simp [quietIter] at hx
    | pollErr => simp [quietIter] at hx
    | readErr => simp [quietIter] at hx

/-- C4 fails on the code: with raw mode enabled, the alternate screen
entered and the terminal created, a failing draw call on the first loop
iteration propagates Err at once through the question-mark operator and
the process exits with raw mode still enabled and the alternate screen
still active — the cleanup calls after the loop never run. -/
theorem terminal_cleanup_cex :
    mainFlow ⟨true, true, true, [.drawErr], true, true⟩ =
      .exited .errExit ⟨true, true⟩ := by
  rfl

/-- C4 amended: the terminal session is released only on the normal Esc
path: after successful setup, a loop running any number of quiet
iterations and then seeing Esc performs both cleanup calls and exits with
raw mode disabled and the alternate screen left, while an I/O failure (a
failing draw) after the same quiet iterations exits early with raw mode
and alternate screen still active. -/
theorem terminal_cleanup_only_on_escape (pre : List IterIo)
    (h : ∀ x ∈ pre, quietIter x = true) :
    mainFlow ⟨true, true, true, pre ++ [.keyEvent .esc], true, true⟩ =
      .exited .okExit ⟨false, false⟩ ∧
    mainFlow ⟨true, true, true, pre ++ [.drawErr], true, true⟩ =
      .exited .errExit ⟨true, true⟩ := by
  constructor
  · show loopFlow true true ⟨true, true⟩ (pre ++ [.keyEvent .esc]) = _
    rw [loopFlow_quiet true true ⟨true, true⟩ pre _ h]
    rfl
  · show loopFlow true true ⟨true, true⟩ (pre ++ [.drawErr]) = _
    rw [loopFlow_quiet true true ⟨true, true⟩ pre _ h]
    rfl

/-- Witness for the amended C4: one quiet iteration, then Esc releases the
terminal, while one quiet iteration, then a failing draw leaves it raw. -/
theorem terminal_cleanup_only_on_escape_witness :
    mainFlow ⟨true, true, true, [.noEvent] ++ [.keyEvent .esc], true, true⟩ =
      .exited .okExit ⟨false, false⟩ ∧
    mainFlow ⟨true, true, true, [.noEvent] ++ [.drawErr], true, true⟩ =
      .exited .errExit ⟨true, true⟩ :=
  terminal_cleanup_only_on_escape [.noEvent] (by decide)
